import Mathlib

/-!
Shallow embedding of the recipe-app backend (Django/DRF application):
the user-scoped queryset logic of `app/recipe/views.py`, the serializer
candidate sets of `app/recipe/serializers.py`, and — modelled from the
specification where the defining module is not part of the sources —
the user store (`createUser`, `verifyCredentials`) and the image file
path generator.

Conventions of the embedding:
* database tables are lists of records; a Django queryset is a list of
  result rows, so a join that multiplies rows is a `List.bind` that
  emits one copy of the record per matching joined row (Django does not
  deduplicate unless `.distinct()` is called, and the source never
  calls it);
* `order_by('-name')` is a sort by name descending (the claims under
  study are invariant under permutation, and we reason through the
  sort's permutation lemma);
* Python truthiness of an optional query parameter (`bool(params.get(k))`)
  is `pyTruthy`: `False` for an absent parameter or empty string,
  `True` otherwise;
* Python `int(s)` is `pyInt?`, returning `none` where `int` raises
  `ValueError` (the view has no handler for it);
* fallible operations return `Except`/`Option`.
-/

/-- A `core.models.Tag` row: `user` is the owner's primary key. -/
structure Tag where
  id : Nat
  user : Nat
  name : String
deriving DecidableEq, Repr

/-- A `core.models.Ingredient` row: `user` is the owner's primary key. -/
structure Ingredient where
  id : Nat
  user : Nat
  name : String
deriving DecidableEq, Repr

/-- A `core.models.Recipe` row.  `tags` and `ingredients` are the
many-to-many association id lists (the through-table rows for this
recipe), `price` is in cents, `image` the stored file path if any. -/
structure Recipe where
  id : Nat
  user : Nat
  title : String
  time_minutes : Nat
  price : Int
  link : String
  image : Option String
  tags : List Nat
  ingredients : List Nat
deriving DecidableEq, Repr

/-- The relational store backing the three domain entity tables. -/
structure Database where
  tags : List Tag
  ingredients : List Ingredient
  recipes : List Recipe
deriving DecidableEq, Repr

/-- Python truthiness of an optional request query parameter:
`bool(self.request.query_params.get(k))` — `False` exactly for an
absent parameter or the empty string. -/
def pyTruthy : Option String → Bool
  | none => false
  | some s => !s.data.isEmpty

/-- Strip leading and trailing whitespace from a character list (the
whitespace handling of Python `int()`). -/
def stripWhitespace (cs : List Char) : List Char :=
  ((cs.dropWhile Char.isWhitespace).reverse.dropWhile Char.isWhitespace).reverse

/-- Python `str.split(',')` over the character list: splitting the
empty string yields one empty piece. -/
def splitComma : List Char → List (List Char)
  | [] => [[]]
  | ',' :: cs => [] :: splitComma cs
  | c :: cs =>
    match splitComma cs with
    | [] => [[c]]
    | p :: ps => (c :: p) :: ps

/-- Digit run of a Python integer literal after the first digit: digits
with single underscores allowed between digits, as `int()` accepts. -/
def pyDigitsAux (acc : Nat) : List Char → Option Nat
  | [] => some acc
  | '_' :: c :: cs =>
    if c.isDigit then pyDigitsAux (acc * 10 + (c.toNat - 48)) cs else none
  | c :: cs =>
    if c.isDigit then pyDigitsAux (acc * 10 + (c.toNat - 48)) cs else none

/-- Python `int(s)` on a string: strips surrounding whitespace, accepts
an optional sign followed by digits; `none` models the `ValueError`
raised on any other input. -/
def pyInt? (s : String) : Option Int :=
  let core : List Char → Option Int := fun cs =>
    match cs with
    | [] => none
    | c :: rest =>
      if c.isDigit then (pyDigitsAux (c.toNat - 48) rest).map Int.ofNat
      else none
  match stripWhitespace s.data with
  | '-' :: cs => (core cs).map Neg.neg
  | '+' :: cs => core cs
  | cs => core cs

/-- `RecipeViewSet._params_to_ints`: split the parameter on commas and
convert every piece with `int`; `none` models the uncaught `ValueError`
when some piece is not an integer literal. -/
def params_to_ints (qs : String) : Option (List Int) :=
  (splitComma qs.data).mapM (fun cs => pyInt? (String.mk cs))

/-- Lexicographic comparison of two character lists by code point: the
collation used to model `order_by` on a name column. -/
def charListLe : List Char → List Char → Bool
  | [], _ => true
  | _ :: _, [] => false
  | a :: as, b :: bs =>
    if a.toNat < b.toNat then true
    else if b.toNat < a.toNat then false
    else charListLe as bs

/-- Name-descending row order of `order_by('-name')`: row `a` comes
before row `b` when `b`'s name is lexicographically at most `a`'s. -/
def nameDesc {α : Type} (getName : α → String) (a b : α) : Prop :=
  charListLe (getName b).data (getName a).data = true

instance {α : Type} (getName : α → String) : DecidableRel (nameDesc getName) :=
  fun a b => instDecidableEqBool (charListLe (getName b).data (getName a).data) true

/-- The reverse-relation inner join `queryset.filter(recipe__isnull=False)`
of `BaseRecipeAttrViewSet.get_queryset`, generically over the attribute
table (`Tag` or `Ingredient`): one result row per (attribute row,
recipe association) pair — Django does not deduplicate the join. -/
def joinAssigned {α : Type} (getId : α → Nat) (xs : List α)
    (rs : List Recipe) (assoc : Recipe → List Nat) : List α :=
  xs.flatMap (fun x => (rs.filter (fun r => (assoc r).contains (getId x))).map (fun _ => x))

/-- `BaseRecipeAttrViewSet.get_queryset`, generically over the attribute
kind: the optional `assigned_only` inner join is applied to the whole
table first, then the rows are filtered by `user=self.request.user` and
ordered by `-name`. -/
def baseAttrQueryset {α : Type} (getId getUser : α → Nat) (getName : α → String)
    (assoc : Recipe → List Nat) (table : List α) (recipes : List Recipe)
    (u : Nat) (assigned_only : Option String) : List α :=
  List.insertionSort (nameDesc getName)
    ((if pyTruthy assigned_only then joinAssigned getId table recipes assoc
      else table).filter (fun x => getUser x == u))

/-- `TagViewSet` list queryset (`queryset = Tag.objects.all()`). -/
def tagListQueryset (db : Database) (u : Nat) (assigned_only : Option String) : List Tag :=
  baseAttrQueryset Tag.id Tag.user Tag.name Recipe.tags db.tags db.recipes u assigned_only

/-- `IngredientViewSet` list queryset (`queryset = Ingredient.objects.all()`). -/
def ingredientListQueryset (db : Database) (u : Nat) (assigned_only : Option String) : List Ingredient :=
  baseAttrQueryset Ingredient.id Ingredient.user Ingredient.name Recipe.ingredients
    db.ingredients db.recipes u assigned_only

/-- The outcome of evaluating `RecipeViewSet.get_queryset`: the only
failure is the uncaught `ValueError` from `_params_to_ints` — the view
has no handler turning it into a 400 response. -/
inductive RecipeListError where
  | unhandledValueError
deriving DecidableEq, Repr

instance {ε α : Type} [DecidableEq ε] [DecidableEq α] : DecidableEq (Except ε α) := fun x y =>
  match x, y with
  | .ok a, .ok b =>
    if h : a = b then .isTrue (h ▸ rfl) else .isFalse (fun hh => h (Except.ok.inj hh))
  | .error a, .error b =>
    if h : a = b then .isTrue (h ▸ rfl) else .isFalse (fun hh => h (Except.error.inj hh))
  | .ok _, .error _ => .isFalse (fun hh => Except.noConfusion hh)
  | .error _, .ok _ => .isFalse (fun hh => Except.noConfusion hh)

/-- `queryset.filter(tags__id__in=tags_ids)`: one result row per
matching recipe-tag through-table row (no deduplication). -/
def recipesFilterTagsIn (qs : List Recipe) (ids : List Int) : List Recipe :=
  qs.flatMap (fun r => (r.tags.filter (fun tid => ids.contains (Int.ofNat tid))).map (fun _ => r))

/-- `queryset.filter(ingredients__id__in=ingredients_ids)`: one result
row per matching recipe-ingredient through-table row. -/
def recipesFilterIngredientsIn (qs : List Recipe) (ids : List Int) : List Recipe :=
  qs.flatMap (fun r => (r.ingredients.filter (fun iid => ids.contains (Int.ofNat iid))).map (fun _ => r))

/-- The `if tags:` branch of `RecipeViewSet.get_queryset`: when the
parameter is truthy, parse it and join-filter, propagating the
uncaught parse error. -/
def applyTagsFilter (p : Option String) (qs : List Recipe) :
    Except RecipeListError (List Recipe) :=
  if pyTruthy p then
    match params_to_ints (p.getD "") with
    | some ids => .ok (recipesFilterTagsIn qs ids)
    | none => .error .unhandledValueError
  else .ok qs

/-- The `if ingredients:` branch of `RecipeViewSet.get_queryset`. -/
def applyIngredientsFilter (p : Option String) (qs : List Recipe) :
    Except RecipeListError (List Recipe) :=
  if pyTruthy p then
    match params_to_ints (p.getD "") with
    | some ids => .ok (recipesFilterIngredientsIn qs ids)
    | none => .error .unhandledValueError
  else .ok qs

/-- The two optional filter parameters of the recipe list request. -/
structure RecipeParams where
  tags : Option String
  ingredients : Option String
deriving DecidableEq, Repr

/-- `RecipeViewSet.get_queryset`: optional tag filter, then optional
ingredient filter, then `filter(user=self.request.user)`. -/
def recipeGetQueryset (db : Database) (u : Nat) (p : RecipeParams) :
    Except RecipeListError (List Recipe) :=
  match applyTagsFilter p.tags db.recipes with
  | .error e => .error e
  | .ok qs1 =>
    match applyIngredientsFilter p.ingredients qs1 with
    | .error e => .error e
    | .ok qs2 => .ok (qs2.filter (fun r => r.user == u))

/-- What the tag filter of the recipe list demands of a recipe: nothing
when the parameter is absent or empty; otherwise the parameter parses
and the recipe carries at least one of the parsed tag ids. -/
def tagsParamSatisfied (p : Option String) (r : Recipe) : Prop :=
  pyTruthy p = true →
    ∃ ids, params_to_ints (p.getD "") = some ids ∧ ∃ tid ∈ r.tags, Int.ofNat tid ∈ ids

/-- What the ingredient filter of the recipe list demands of a recipe. -/
def ingredientsParamSatisfied (p : Option String) (r : Recipe) : Prop :=
  pyTruthy p = true →
    ∃ ids, params_to_ints (p.getD "") = some ids ∧ ∃ iid ∈ r.ingredients, Int.ofNat iid ∈ ids

/-- DRF `get_object` on the recipe detail route: look the primary key up
inside `get_queryset()` (no filter parameters on the detail route);
`none` is the 404 `NotFound` outcome. -/
def recipeRetrieveDetail (db : Database) (u : Nat) (rid : Nat) : Option Recipe :=
  match recipeGetQueryset db u ⟨none, none⟩ with
  | .ok l => l.find? (fun r => r.id == rid)
  | .error _ => none

/-- The writable payload of `RecipeSerializer` (`fields` minus the
read-only `id`): `tags` and `ingredients` are submitted as primary-key
lists (`PrimaryKeyRelatedField(..., many=True)`). -/
structure RecipePayload where
  title : String
  time_minutes : Nat
  price : Int
  link : String
  tags : List Nat
  ingredients : List Nat
deriving DecidableEq, Repr

/-- Validation outcome of a serializer: a 400 `ValidationError`. -/
inductive SerializerError where
  | validationError
deriving DecidableEq, Repr

/-- `PrimaryKeyRelatedField` validation: every submitted id must exist
in the field's candidate queryset. -/
def primaryKeysValid (ids : List Nat) (candidateIds : List Nat) : Bool :=
  ids.all (fun i => candidateIds.contains i)

/-- `RecipeSerializer` validation: the candidate querysets of the
`tags` and `ingredients` fields are `Tag.objects.all()` and
`Ingredient.objects.all()` — the unscoped tables, not the acting
user's rows — and `title` is a required non-blank `CharField`. -/
def recipeSerializerValid (db : Database) (p : RecipePayload) : Bool :=
  !p.title.data.isEmpty &&
  primaryKeysValid p.tags (db.tags.map Tag.id) &&
  primaryKeysValid p.ingredients (db.ingredients.map Ingredient.id)

/-- `RecipeViewSet.perform_create` / `serializer.save(user=self.request.user)`:
on a valid payload, persist a new recipe owned by the acting user with
exactly the submitted associations; `newId` is the fresh primary key
issued by the store. -/
def recipeCreate (db : Database) (u : Nat) (newId : Nat) (p : RecipePayload) :
    Except SerializerError (Recipe × Database) :=
  if recipeSerializerValid db p then
    let r : Recipe :=
      { id := newId, user := u, title := p.title, time_minutes := p.time_minutes,
        price := p.price, link := p.link, image := none,
        tags := p.tags, ingredients := p.ingredients }
    .ok (r, { db with recipes := db.recipes ++ [r] })
  else .error .validationError

/-- Failure of the user store's `createUser`. -/
inductive UserError where
  | validationError
deriving DecidableEq, Repr

/-- A stored user account row. -/
structure StoredUser where
  email : String
  passwordHash : String
  name : String
  is_staff : Bool
  is_active : Bool
  is_superuser : Bool
deriving DecidableEq, Repr

/-- Model of the external one-way secret-hashing collaborator (the spec
treats hashing internals as out of scope; only that matching is by
re-hash comparison matters here). -/
def hashSecret (pw : String) : String :=
  String.mk ('#' :: pw.data)

/-- Sentinel stored for an account created without a password: the
unusable-for-login default, matched by no `hashSecret pw`. -/
def unusableHash : String := "!"

/-- Full lowercasing of a string, character by character. -/
def lowercaseStr (s : String) : String :=
  String.mk (s.data.map Char.toLower)

/-- Modelled from the spec: `createUser(email, password, name?)` of the
User Store (`core/models.py` is not among the sources; only its tests
are).  Fails with `ValidationError` if the email is empty or absent,
normalizes the email to lowercase before storage, stores only a hash
of the password (an unusable default when no password is supplied),
and appends the new user to the store. -/
def createUser (users : List StoredUser) (email : Option String)
    (password : Option String) (nm : String) :
    Except UserError (StoredUser × List StoredUser) :=
  if (email.getD "").data.isEmpty then .error .validationError
  else
    let u : StoredUser :=
      { email := lowercaseStr (email.getD ""),
        passwordHash := (password.map hashSecret).getD unusableHash,
        name := nm, is_staff := false, is_active := true, is_superuser := false }
    .ok (u, users ++ [u])

/-- Modelled from the spec: `createSuperuser(email, password)` — same
as `createUser`, additionally setting `is_staff` and `is_superuser`. -/
def createSuperuser (users : List StoredUser) (email : Option String)
    (password : Option String) :
    Except UserError (StoredUser × List StoredUser) :=
  match createUser users email password "" with
  | .error e => .error e
  | .ok (u, _) =>
    let su := { u with is_staff := true, is_superuser := true }
    .ok (su, users ++ [su])

/-- Secret verification of the external hashing collaborator: compare
the stored hash with the re-hash of the candidate password. -/
def checkPassword (u : StoredUser) (pw : String) : Bool :=
  u.passwordHash == hashSecret pw

/-- The session token issued for an account (an uninterpreted value to
clients; the model only needs that a token value exists on success). -/
def genToken (u : StoredUser) : String :=
  String.mk ('t' :: 'o' :: 'k' :: ':' :: u.email.data)

/-- The single generic message of a failed credential exchange: the
same for a wrong password, an unknown email and a missing field, so
the response never reveals whether the email exists. -/
def invalidCredentialsMsg : String := "Unable to authenticate with provided credentials"

/-- Result of `POST /user/token`: a token on success, a 400 response
carrying an error message otherwise. -/
inductive TokenResult where
  | token (t : String)
  | error400 (msg : String)
deriving DecidableEq, Repr

/-- Modelled from the spec: `verifyCredentials(email, password)` of the
User Store (`user/views.py` / `user/serializers.py` are not among the
sources; only their tests and routes are).  Returns a session token
exactly when both fields are supplied non-empty and match a stored
account; every failure — missing field, unknown email, wrong
password — yields a 400 with the same generic message. -/
def verifyCredentials (users : List StoredUser) (email : Option String)
    (password : Option String) : TokenResult :=
  if (email.getD "").data.isEmpty || (password.getD "").data.isEmpty then
    .error400 invalidCredentialsMsg
  else
    (users.find? (fun u => u.email == email.getD "")).elim
      (.error400 invalidCredentialsMsg)
      (fun u =>
        if checkPassword u (password.getD "") then .token (genToken u)
        else .error400 invalidCredentialsMsg)

/-- Extension of an uploaded file name, as the path generator uses it:
the part after the last dot (`filename.split('.')[-1]`). -/
def fileExtension (filename : String) : String :=
  String.mk ((filename.data.reverse.takeWhile (fun c => c != '.')).reverse)

/-- Modelled from the spec: `recipe_image_file_path` of `core/models.py`
(not among the sources; only its test is).  The freshly generated
UUID-class value is passed in as `uuid`; the stored path is
`uploads/recipe/<uuid>.<ext>` where `<ext>` is the uploaded file
name's extension.  Nothing else — in particular not the file's
content — enters the path. -/
def recipe_image_file_path (uuid : String) (filename : String) : String :=
  "uploads/recipe/" ++ uuid ++ "." ++ fileExtension filename

/-! ### Queryset lemmas -/

/-- Membership in the non-deduplicated reverse-relation join: a row
appears iff it is in the table and some recipe's association list
carries its id. -/
theorem mem_joinAssigned {α : Type} (getId : α → Nat) (xs : List α)
    (rs : List Recipe) (assoc : Recipe → List Nat) (x : α) :
    x ∈ joinAssigned getId xs rs assoc ↔
      x ∈ xs ∧ ∃ r ∈ rs, getId x ∈ assoc r := by
  unfold joinAssigned
  rw [List.mem_flatMap]
  constructor
  · rintro ⟨a, ha, hm⟩
    rw [List.mem_map] at hm
    obtain ⟨r, hr, rfl⟩ := hm
    rw [List.mem_filter] at hr
    exact ⟨ha, r, hr.1, by simpa using hr.2⟩
  · rintro ⟨hx, r, hr, hc⟩
    exact ⟨x, hx, List.mem_map.2 ⟨r, List.mem_filter.2 ⟨hr, by simpa using hc⟩, rfl⟩⟩

/-- Count of a fixed row copied once per element of a list. -/
theorem count_map_const {α β : Type} [DecidableEq α] (x y : α) (l : List β) :
    (l.map (fun _ => x)).count y = if y = x then l.length else 0 := by
  rcases eq_or_ne y x with rfl | h
  · simp [List.count_replicate]
  · rw [List.map_const', List.count_replicate, if_neg (by simpa using Ne.symm h), if_neg h]

/-- Multiplicity in the reverse-relation join: a row occurs once per
(table copy, matching recipe) pair. -/
theorem count_joinAssigned {α : Type} [DecidableEq α] (getId : α → Nat) (xs : List α)
    (rs : List Recipe) (assoc : Recipe → List Nat) (x : α) :
    (joinAssigned getId xs rs assoc).count x =
      xs.count x * (rs.filter (fun r => (assoc r).contains (getId x))).length := by
  induction xs with
  | nil => simp [joinAssigned]
  | cons a as ih =>
    unfold joinAssigned at ih ⊢
    rw [List.flatMap_cons, List.count_append, count_map_const, ih, List.count_cons]
    rcases eq_or_ne x a with rfl | hne
    · simp [Nat.add_mul, Nat.add_comm]
    · simp [hne, Ne.symm hne]

/-- Membership in the base attribute queryset when `assigned_only` is
truthy: owner filter on the row itself, recipe join over all recipes. -/
theorem mem_baseAttrQueryset {α : Type} (getId getUser : α → Nat) (getName : α → String)
    (assoc : Recipe → List Nat) (table : List α) (recipes : List Recipe)
    (u : Nat) (p : Option String) (x : α) (hp : pyTruthy p = true) :
    x ∈ baseAttrQueryset getId getUser getName assoc table recipes u p ↔
      x ∈ table ∧ getUser x = u ∧ ∃ r ∈ recipes, getId x ∈ assoc r := by
  unfold baseAttrQueryset
  rw [hp, if_pos rfl, List.mem_insertionSort, List.mem_filter, mem_joinAssigned]
  simp only [beq_iff_eq]
  tauto

/-- Every row of the base attribute queryset is owned by the requesting
user, whatever the filter parameter. -/
theorem user_of_mem_baseAttrQueryset {α : Type} (getId getUser : α → Nat) (getName : α → String)
    (assoc : Recipe → List Nat) (table : List α) (recipes : List Recipe)
    (u : Nat) (p : Option String) (x : α)
    (h : x ∈ baseAttrQueryset getId getUser getName assoc table recipes u p) :
    getUser x = u := by
  unfold baseAttrQueryset at h
  rw [List.mem_insertionSort, List.mem_filter] at h
  exact beq_iff_eq.1 h.2

/-- Multiplicity in the base attribute queryset when `assigned_only` is
truthy, for a row owned by the requesting user. -/
theorem count_baseAttrQueryset {α : Type} [DecidableEq α] (getId getUser : α → Nat)
    (getName : α → String) (assoc : Recipe → List Nat) (table : List α)
    (recipes : List Recipe) (u : Nat) (p : Option String) (x : α)
    (hp : pyTruthy p = true) (hu : getUser x = u) :
    (baseAttrQueryset getId getUser getName assoc table recipes u p).count x =
      table.count x * (recipes.filter (fun r => (assoc r).contains (getId x))).length := by
  unfold baseAttrQueryset
  rw [hp, if_pos rfl,
    (List.perm_insertionSort (nameDesc getName) _).count_eq x,
    List.count_filter (by simpa using hu), count_joinAssigned]

/-- Membership in the tag id join-filter of the recipe list. -/
theorem mem_recipesFilterTagsIn (qs : List Recipe) (ids : List Int) (r : Recipe) :
    r ∈ recipesFilterTagsIn qs ids ↔ r ∈ qs ∧ ∃ tid ∈ r.tags, Int.ofNat tid ∈ ids := by
  unfold recipesFilterTagsIn
  rw [List.mem_flatMap]
  constructor
  · rintro ⟨a, ha, hm⟩
    rw [List.mem_map] at hm
    obtain ⟨tid, htid, rfl⟩ := hm
    rw [List.mem_filter] at htid
    exact ⟨ha, tid, htid.1, by simpa using htid.2⟩
  · rintro ⟨hr, tid, htid, hc⟩
    exact ⟨r, hr, List.mem_map.2 ⟨tid, List.mem_filter.2 ⟨htid, by simpa using hc⟩, rfl⟩⟩

/-- Membership in the ingredient id join-filter of the recipe list. -/
theorem mem_recipesFilterIngredientsIn (qs : List Recipe) (ids : List Int) (r : Recipe) :
    r ∈ recipesFilterIngredientsIn qs ids ↔
      r ∈ qs ∧ ∃ iid ∈ r.ingredients, Int.ofNat iid ∈ ids := by
  unfold recipesFilterIngredientsIn
  rw [List.mem_flatMap]
  constructor
  · rintro ⟨a, ha, hm⟩
    rw [List.mem_map] at hm
    obtain ⟨iid, hiid, rfl⟩ := hm
    rw [List.mem_filter] at hiid
    exact ⟨ha, iid, hiid.1, by simpa using hiid.2⟩
  · rintro ⟨hr, iid, hiid, hc⟩
    exact ⟨r, hr, List.mem_map.2 ⟨iid, List.mem_filter.2 ⟨hiid, by simpa using hc⟩, rfl⟩⟩

/-- A successful tag filter stage keeps exactly the rows satisfying the
parameter's demand. -/
theorem applyTagsFilter_ok (p : Option String) (qs res : List Recipe)
    (h : applyTagsFilter p qs = .ok res) (r : Recipe) :
    r ∈ res ↔ r ∈ qs ∧ tagsParamSatisfied p r := by
  unfold applyTagsFilter at h
  unfold tagsParamSatisfied
  by_cases ht : pyTruthy p = true
  · rw [if_pos ht] at h
    cases hp : params_to_ints (p.getD "") with
    | none => rw [hp] at h; cases h
    | some ids =>
      rw [hp] at h
      cases h
      rw [mem_recipesFilterTagsIn]
      simp [ht, hp]
  · rw [if_neg ht] at h
    cases h
    simp [ht]

/-- A successful ingredient filter stage keeps exactly the rows
satisfying the parameter's demand. -/
theorem applyIngredientsFilter_ok (p : Option String) (qs res : List Recipe)
    (h : applyIngredientsFilter p qs = .ok res) (r : Recipe) :
    r ∈ res ↔ r ∈ qs ∧ ingredientsParamSatisfied p r := by
  unfold applyIngredientsFilter at h
  unfold ingredientsParamSatisfied
  by_cases ht : pyTruthy p = true
  · rw [if_pos ht] at h
    cases hp : params_to_ints (p.getD "") with
    | none => rw [hp] at h; cases h
    | some ids =>
      rw [hp] at h
      cases h
      rw [mem_recipesFilterIngredientsIn]
      simp [ht, hp]
  · rw [if_neg ht] at h
    cases h
    simp [ht]

/-- Full membership characterization of a successful recipe list
evaluation: caller's rows only, and the conjunction of the two
optional filters' demands. -/
theorem recipeGetQueryset_ok_iff (db : Database) (u : Nat) (p : RecipeParams)
    (l : List Recipe) (h : recipeGetQueryset db u p = .ok l) (r : Recipe) :
    r ∈ l ↔ r ∈ db.recipes ∧ r.user = u ∧
      tagsParamSatisfied p.tags r ∧ ingredientsParamSatisfied p.ingredients r := by
  unfold recipeGetQueryset at h
  cases h1 : applyTagsFilter p.tags db.recipes with
  | error e => rw [h1] at h; simp at h
  | ok qs1 =>
    rw [h1] at h
    dsimp only at h
    cases h2 : applyIngredientsFilter p.ingredients qs1 with
    | error e => rw [h2] at h; simp at h
    | ok qs2 =>
      rw [h2] at h
      dsimp only at h
      cases h
      rw [List.mem_filter, applyIngredientsFilter_ok _ _ _ h2, applyTagsFilter_ok _ _ _ h1]
      simp only [beq_iff_eq]
      tauto

/-! ### Claims about the attribute list endpoints (C1, C2, C9) -/

/-- C1 (counterexample): the claim says `assigned_only` returns exactly
the caller's tags referenced by at least one of the *caller's* recipes.
In this database, user 1's tag (id 1) is referenced only by a recipe of
user 2, yet user 1's `assigned_only` tag list returns the tag, while no
recipe of user 1 references it. -/
theorem assigned_only_scoping_counterexample :
    (⟨1, 1, "A"⟩ : Tag) ∈
      tagListQueryset ⟨[⟨1, 1, "A"⟩], [], [⟨1, 2, "R", 1, 1, "", none, [1], []⟩]⟩ 1 (some "1") ∧
    ∀ r ∈ (⟨[⟨1, 1, "A"⟩], [], [⟨1, 2, "R", 1, 1, "", none, [1], []⟩]⟩ : Database).recipes,
      ¬(r.user = 1 ∧ (1 : Nat) ∈ r.tags) := by decide

/-- C1 (amended): listing Tags or Ingredients with a truthy
`assigned_only` parameter returns exactly the caller's entities that
are referenced by at least one recipe of ANY user — the
recipe-association inner join is applied to the whole recipe table
before the owner filter, which constrains only the attribute row. -/
theorem assigned_only_joins_all_users_recipes
    (db : Database) (u : Nat) (p : Option String) (hp : pyTruthy p = true) :
    (∀ t : Tag, t ∈ tagListQueryset db u p ↔
      t ∈ db.tags ∧ t.user = u ∧ ∃ r ∈ db.recipes, t.id ∈ r.tags) ∧
    (∀ g : Ingredient, g ∈ ingredientListQueryset db u p ↔
      g ∈ db.ingredients ∧ g.user = u ∧ ∃ r ∈ db.recipes, g.id ∈ r.ingredients) :=
  ⟨fun t => mem_baseAttrQueryset Tag.id Tag.user Tag.name Recipe.tags
      db.tags db.recipes u p t hp,
   fun g => mem_baseAttrQueryset Ingredient.id Ingredient.user Ingredient.name
      Recipe.ingredients db.ingredients db.recipes u p g hp⟩

/-- C1 (witness): the amended characterization applied to a concrete
database — user 7's tag is referenced by a recipe and is returned. -/
theorem assigned_only_joins_all_users_recipes_witness :
    (⟨3, 7, "B"⟩ : Tag) ∈
      tagListQueryset ⟨[⟨3, 7, "B"⟩], [], [⟨9, 7, "S", 2, 3, "", none, [3], []⟩]⟩ 7 (some "1") :=
  ((assigned_only_joins_all_users_recipes
      ⟨[⟨3, 7, "B"⟩], [], [⟨9, 7, "S", 2, 3, "", none, [3], []⟩]⟩ 7 (some "1")
      (by decide)).1 ⟨3, 7, "B"⟩).2 (by decide)

/-- C2 (counterexample): the claim says user B's results are unchanged
by the presence or absence of user A's entities.  The two databases
below differ only in a recipe owned by user 2, yet user 1's
`assigned_only` tag list differs between them (the join counts the
other user's recipe). -/
theorem cross_user_noninterference_counterexample :
    tagListQueryset ⟨[⟨1, 1, "A"⟩], [], [⟨1, 2, "R", 1, 1, "", none, [1], []⟩]⟩ 1 (some "1") ≠
      tagListQueryset ⟨[⟨1, 1, "A"⟩], [], []⟩ 1 (some "1") := by decide

/-- C2 (amended): an entity owned by another user is never *returned*:
every tag, ingredient or recipe in any list result, and any recipe
returned by the detail lookup, is owned by the requesting user.
(The stronger noninterference reading fails: A's recipes can change
B's `assigned_only` results, see the counterexample.) -/
theorem results_owned_by_requesting_user
    (db : Database) (u : Nat) (p : Option String) (q : RecipeParams) (rid : Nat) :
    (∀ t ∈ tagListQueryset db u p, t.user = u) ∧
    (∀ g ∈ ingredientListQueryset db u p, g.user = u) ∧
    (∀ l, recipeGetQueryset db u q = .ok l → ∀ r ∈ l, r.user = u) ∧
    (∀ r, recipeRetrieveDetail db u rid = some r → r.user = u) := by
  refine ⟨?_, ?_, ?_, ?_⟩
  · exact fun t ht => user_of_mem_baseAttrQueryset Tag.id Tag.user Tag.name Recipe.tags
      db.tags db.recipes u p t ht
  · exact fun g hg => user_of_mem_baseAttrQueryset Ingredient.id Ingredient.user
      Ingredient.name Recipe.ingredients db.ingredients db.recipes u p g hg
  · intro l hl r hr
    exact ((recipeGetQueryset_ok_iff db u q l hl r).1 hr).2.1
  · intro r hr
    unfold recipeRetrieveDetail at hr
    cases hq : recipeGetQueryset db u ⟨none, none⟩ with
    | error e => rw [hq] at hr; cases hr
    | ok l =>
      rw [hq] at hr
      exact ((recipeGetQueryset_ok_iff db u ⟨none, none⟩ l hq r).1
        (List.mem_of_find?_eq_some hr)).2.1

/-- C2 (witness): ownership of results at a concrete database. -/
theorem results_owned_by_requesting_user_witness :
    (⟨1, 5, "A"⟩ : Tag).user = 5 :=
  (results_owned_by_requesting_user ⟨[⟨1, 5, "A"⟩], [], []⟩ 5 none ⟨none, none⟩ 0).1
    ⟨1, 5, "A"⟩ (by decide)

/-- C9 (counterexample): the claim says an entity assigned to N of the
*caller's* recipes appears N times.  Here user 1's tag is assigned to
exactly one of user 1's recipes, but also to a recipe of user 2, and it
appears twice in user 1's `assigned_only` list. -/
theorem assigned_only_multiplicity_counterexample :
    (tagListQueryset ⟨[⟨1, 1, "A"⟩], [],
        [⟨1, 1, "R1", 1, 1, "", none, [1], []⟩, ⟨2, 2, "R2", 1, 1, "", none, [1], []⟩]⟩
      1 (some "1")).count ⟨1, 1, "A"⟩ = 2 ∧
    (([⟨1, 1, "R1", 1, 1, "", none, [1], []⟩, ⟨2, 2, "R2", 1, 1, "", none, [1], []⟩]
        : List Recipe).filter (fun r => r.user == 1 && r.tags.contains 1)).length = 1 := by
  decide

/-- C9 (amended): with `assigned_only` truthy, a tag or ingredient row
of the caller occurs in the result once per recipe — of any user —
whose association list references it (times its own table
multiplicity); the recipe join is not deduplicated, so the list is
not always duplicate-free. -/
theorem assigned_only_row_multiplicity
    (db : Database) (u : Nat) (p : Option String) (hp : pyTruthy p = true) :
    (∀ t : Tag, t.user = u →
      (tagListQueryset db u p).count t =
        db.tags.count t * (db.recipes.filter (fun r => r.tags.contains t.id)).length) ∧
    (∀ g : Ingredient, g.user = u →
      (ingredientListQueryset db u p).count g =
        db.ingredients.count g *
          (db.recipes.filter (fun r => r.ingredients.contains g.id)).length) :=
  ⟨fun t ht => count_baseAttrQueryset Tag.id Tag.user Tag.name Recipe.tags
      db.tags db.recipes u p t hp ht,
   fun g hg => count_baseAttrQueryset Ingredient.id Ingredient.user Ingredient.name
      Recipe.ingredients db.ingredients db.recipes u p g hp hg⟩

/-- C9 (witness): a tag assigned to two recipes of the caller appears
twice in the caller's `assigned_only` tag list. -/
theorem assigned_only_row_multiplicity_witness :
    (tagListQueryset ⟨[⟨1, 1, "A"⟩], [],
        [⟨1, 1, "R1", 1, 1, "", none, [1], []⟩, ⟨2, 1, "R2", 1, 1, "", none, [1], []⟩]⟩
      1 (some "1")).count ⟨1, 1, "A"⟩ = 2 :=
  ((assigned_only_row_multiplicity
      ⟨[⟨1, 1, "A"⟩], [],
        [⟨1, 1, "R1", 1, 1, "", none, [1], []⟩, ⟨2, 1, "R2", 1, 1, "", none, [1], []⟩]⟩
      1 (some "1") (by decide)).1 ⟨1, 1, "A"⟩ rfl).trans (by decide)

/-! ### Claims about the recipe list endpoint (C5, C8) -/

/-- C5: a successful recipe list evaluation returns exactly the
caller's recipes matching ANY of the parsed tag ids (OR within the
field), and when both parameters are given a recipe must satisfy both
fields (AND across fields); an absent or empty parameter demands
nothing. -/
theorem recipe_list_or_within_field_and_across_fields
    (db : Database) (u : Nat) (p : RecipeParams) (l : List Recipe)
    (h : recipeGetQueryset db u p = .ok l) (r : Recipe) :
    r ∈ l ↔ r ∈ db.recipes ∧ r.user = u ∧
      tagsParamSatisfied p.tags r ∧ ingredientsParamSatisfied p.ingredients r :=
  recipeGetQueryset_ok_iff db u p l h r

/-- C5 (witness): with `tags=1,2` and `ingredients=3`, a recipe of the
caller carrying tag 1 and ingredient 3 is in the result. -/
theorem recipe_list_or_within_field_and_across_fields_witness :
    (⟨1, 1, "A", 1, 1, "", none, [1], [3]⟩ : Recipe) ∈
      [(⟨1, 1, "A", 1, 1, "", none, [1], [3]⟩ : Recipe)] :=
  (recipe_list_or_within_field_and_across_fields
      ⟨[], [], [⟨1, 1, "A", 1, 1, "", none, [1], [3]⟩, ⟨2, 2, "B", 1, 1, "", none, [1], [3]⟩]⟩
      1 ⟨some "1,2", some "3"⟩ [⟨1, 1, "A", 1, 1, "", none, [1], [3]⟩]
      (by decide) ⟨1, 1, "A", 1, 1, "", none, [1], [3]⟩).2
    ⟨by decide, rfl,
     fun _ => ⟨[1, 2], by decide, by decide⟩,
     fun _ => ⟨[3], by decide, by decide⟩⟩

/-- A `mapM` over `Option` fails as soon as one element fails. -/
theorem mapM_option_none {α β : Type} (f : α → Option β) (l : List α)
    (h : ∃ a ∈ l, f a = none) : l.mapM f = none := by
  induction l with
  | nil => simp at h
  | cons a as ih =>
    rw [List.mapM_cons]
    rcases h with ⟨c, hc, hnone⟩
    rcases List.mem_cons.1 hc with rfl | hmem
    · rw [hnone]; rfl
    · have has : as.mapM f = none := ih ⟨c, hmem, hnone⟩
      cases hpa : f a with
      | none => rfl
      | some v => rw [has]; rfl

/-- C8: for EVERY truthy `tags` or `ingredients` parameter value
containing a comma-separated token that `int()` rejects (e.g.
`tags=1,abc`), the id-parsing step fails and
`RecipeViewSet.get_queryset` ends in the uncaught-`ValueError`
outcome — never a handled `ValidationError`/400 (`RecipeListError`
has no such outcome: the view wraps the conversion in no
try/except) — whatever the database, the user, and the other filter
parameter. -/
theorem malformed_id_token_raises_unhandled
    (db : Database) (u : Nat) (s : String)
    (hs : pyTruthy (some s) = true)
    (hbad : ∃ cs ∈ splitComma s.data, pyInt? (String.mk cs) = none) :
    params_to_ints s = none ∧
    (∀ pi, recipeGetQueryset db u ⟨some s, pi⟩ = .error .unhandledValueError) ∧
    (∀ pt, recipeGetQueryset db u ⟨pt, some s⟩ = .error .unhandledValueError) := by
  have hnone : params_to_ints s = none := mapM_option_none _ _ hbad
  have htag : ∀ qs, applyTagsFilter (some s) qs = .error .unhandledValueError := by
    intro qs
    unfold applyTagsFilter
    rw [if_pos hs]
    simp only [Option.getD, hnone]
  have hing : ∀ qs, applyIngredientsFilter (some s) qs = .error .unhandledValueError := by
    intro qs
    unfold applyIngredientsFilter
    rw [if_pos hs]
    simp only [Option.getD, hnone]
  refine ⟨hnone, ?_, ?_⟩
  · intro pi
    unfold recipeGetQueryset
    rw [htag db.recipes]
  · intro pt
    unfold recipeGetQueryset
    cases ht : applyTagsFilter pt db.recipes with
    | error e => cases e; rfl
    | ok qs1 =>
      dsimp only
      rw [hing qs1]

/-- C8 (witness): the universal statement applied at the parameter
value `1,abc` of the claim's example. -/
theorem malformed_id_token_raises_unhandled_witness :
    params_to_ints "1,abc" = none ∧
    recipeGetQueryset ⟨[], [], []⟩ 0 ⟨some "1,abc", none⟩ = .error .unhandledValueError :=
  ⟨(malformed_id_token_raises_unhandled ⟨[], [], []⟩ 0 "1,abc" (by decide) (by decide)).1,
   (malformed_id_token_raises_unhandled ⟨[], [], []⟩ 0 "1,abc" (by decide) (by decide)).2.1 none⟩

/-! ### Claims about creation and the user store (C10, C3, C4, C6, C7) -/

/-- C10: `RecipeSerializer` validates the submitted tag and ingredient
ids against the unscoped tables (`Tag.objects.all()` /
`Ingredient.objects.all()`): validity depends only on existence of the
ids, never on their owner, and a valid payload is persisted for the
acting user with exactly the submitted associations — including ids
owned by a different user. -/
theorem recipe_create_accepts_any_existing_attr_ids
    (db : Database) (u newId : Nat) (p : RecipePayload) :
    (recipeSerializerValid db p = true ↔
      p.title.data ≠ [] ∧ (∀ i ∈ p.tags, i ∈ db.tags.map Tag.id) ∧
      (∀ i ∈ p.ingredients, i ∈ db.ingredients.map Ingredient.id)) ∧
    (recipeSerializerValid db p = true →
      ∃ r db2, recipeCreate db u newId p = .ok (r, db2) ∧ r.user = u ∧
        r.tags = p.tags ∧ r.ingredients = p.ingredients ∧
        db2.recipes = db.recipes ++ [r]) := by
  constructor
  · unfold recipeSerializerValid primaryKeysValid
    simp [List.all_eq_true, List.isEmpty_iff, and_assoc]
  · intro hv
    unfold recipeCreate
    rw [if_pos hv]
    exact ⟨_, _, rfl, rfl, rfl, rfl, rfl⟩

/-- C10 (witness): user 1 creates a recipe referencing a tag and an
ingredient owned by user 2; the creation succeeds and persists the
cross-user associations. -/
theorem recipe_create_accepts_any_existing_attr_ids_witness :
    recipeSerializerValid ⟨[⟨5, 2, "T"⟩], [⟨7, 2, "I"⟩], []⟩ ⟨"Meal", 3, 4, "", [5], [7]⟩ = true ∧
    ∃ r db2,
      recipeCreate ⟨[⟨5, 2, "T"⟩], [⟨7, 2, "I"⟩], []⟩ 1 9 ⟨"Meal", 3, 4, "", [5], [7]⟩ =
        .ok (r, db2) ∧ r.user = 1 ∧ r.tags = [5] ∧ r.ingredients = [7] ∧
      db2.recipes = [] ++ [r] :=
  ⟨by decide,
   (recipe_create_accepts_any_existing_attr_ids
      ⟨[⟨5, 2, "T"⟩], [⟨7, 2, "I"⟩], []⟩ 1 9 ⟨"Meal", 3, 4, "", [5], [7]⟩).2 (by decide)⟩

/-- C3: the stored user's email is the full lowercasing of the
submitted email — local part and domain alike — whenever the email is
non-empty.  (Spec-modelled: `core/models.py` is not among the sources.) -/
theorem createUser_lowercases_email (users : List StoredUser) (e : String)
    (pw : Option String) (nm : String) (he : e.data.isEmpty = false) :
    ∃ u rest, createUser users (some e) pw nm = .ok (u, rest) ∧
      u.email = lowercaseStr e ∧ rest = users ++ [u] := by
  have h : createUser users (some e) pw nm =
      .ok (⟨lowercaseStr e, (pw.map hashSecret).getD unusableHash, nm, false, true, false⟩,
        users ++ [⟨lowercaseStr e, (pw.map hashSecret).getD unusableHash, nm, false, true, false⟩]) := by
    unfold createUser
    rw [if_neg (by simp [he])]
    rfl
  exact ⟨_, _, h, rfl, rfl⟩

/-- C4 helper fact: the empty-email condition of `createUser` holds for
an absent email as well, since the absent field defaults to the empty
string. -/
theorem createUser_error_eval (users : List StoredUser) (pw : Option String) (nm : String)
    (email : Option String) (he : (email.getD "").data.isEmpty = true) :
    createUser users email pw nm = .error .validationError := by
  unfold createUser
  rw [if_pos he]

/-- C3 (witness): `Upper@EMAIL.COM` is stored as `upper@email.com` —
the local part is lowercased too. -/
theorem createUser_lowercases_email_witness :
    ∃ u rest, createUser [] (some "Upper@EMAIL.COM") (some "pw") "nm" = .ok (u, rest) ∧
      u.email = "upper@email.com" := by
  obtain ⟨u, rest, h1, h2, _⟩ :=
    createUser_lowercases_email [] "Upper@EMAIL.COM" (some "pw") "nm" (by decide)
  exact ⟨u, rest, h1, h2.trans (by decide)⟩

/-- C4: `createUser` with an absent or empty email fails with
`ValidationError`; no user is produced (the error outcome carries no
store).  (Spec-modelled: `core/models.py` is not among the sources;
its test asserts the failure as a raised error.) -/
theorem createUser_rejects_missing_email (users : List StoredUser)
    (pw : Option String) (nm : String) :
    createUser users none pw nm = .error .validationError ∧
    createUser users (some "") pw nm = .error .validationError :=
  ⟨createUser_error_eval users pw nm none (by decide),
   createUser_error_eval users pw nm (some "") (by decide)⟩

/-- Every evaluation of `verifyCredentials` is either the single
generic 400 error or a token. -/
theorem verifyCredentials_total_cases (users : List StoredUser) (e pw : Option String) :
    verifyCredentials users e pw = .error400 invalidCredentialsMsg ∨
    ∃ t, verifyCredentials users e pw = .token t := by
  unfold verifyCredentials
  by_cases h1 : ((e.getD "").data.isEmpty || (pw.getD "").data.isEmpty) = true
  · rw [if_pos h1]; exact .inl rfl
  · rw [if_neg h1]
    cases hf : users.find? (fun u => u.email == e.getD "") with
    | none => exact .inl rfl
    | some u =>
      simp only [Option.elim]
      by_cases hc : checkPassword u (pw.getD "") = true
      · rw [if_pos hc]; exact .inr ⟨genToken u, rfl⟩
      · rw [if_neg hc]; exact .inl rfl

/-- C6: `verifyCredentials` returns a token exactly when both fields
are supplied non-empty and match a stored account (email found,
password verifies); every failure — wrong password, unknown email,
missing/empty field — yields the same generic invalid-credentials 400
error, revealing nothing about whether the email exists.
(Spec-modelled: `user/views.py` / `user/serializers.py` are not among
the sources.) -/
theorem verifyCredentials_token_iff_match (users : List StoredUser) (e pw : Option String) :
    ((∃ t, verifyCredentials users e pw = .token t) ↔
      ∃ u, (e.getD "").data.isEmpty = false ∧ (pw.getD "").data.isEmpty = false ∧
        users.find? (fun v => v.email == e.getD "") = some u ∧
        checkPassword u (pw.getD "") = true) ∧
    ((∀ t, verifyCredentials users e pw ≠ .token t) →
      verifyCredentials users e pw = .error400 invalidCredentialsMsg) := by
  constructor
  · constructor
    · rintro ⟨t, ht⟩
      unfold verifyCredentials at ht
      by_cases h1 : ((e.getD "").data.isEmpty || (pw.getD "").data.isEmpty) = true
      · rw [if_pos h1] at ht
        exact TokenResult.noConfusion ht
      · rw [if_neg h1] at ht
        cases hf : users.find? (fun v => v.email == e.getD "") with
        | none =>
          rw [hf] at ht
          exact TokenResult.noConfusion ht
        | some u =>
          rw [hf] at ht
          simp only [Option.elim] at ht
          by_cases hc : checkPassword u (pw.getD "") = true
          · simp only [Bool.or_eq_true, not_or, Bool.not_eq_true] at h1
            exact ⟨u, h1.1, h1.2, rfl, hc⟩
          · rw [if_neg hc] at ht
            exact TokenResult.noConfusion ht
    · rintro ⟨u, h3, h4, h5, h6⟩
      refine ⟨genToken u, ?_⟩
      unfold verifyCredentials
      rw [if_neg (by simp [h3, h4]), h5]
      simp only [Option.elim]
      rw [if_pos h6]
  · intro hne
    rcases verifyCredentials_total_cases users e pw with h | ⟨t, ht⟩
    · exact h
    · exact absurd ht (hne t)

/-- C6 (witness): a wrong password yields the generic error (the same
value returned for an unknown email or a missing field). -/
theorem verifyCredentials_token_iff_match_witness :
    verifyCredentials [⟨"a@b.c", hashSecret "right", "n", false, true, false⟩]
      (some "a@b.c") (some "wrong") = .error400 invalidCredentialsMsg := by
  refine (verifyCredentials_token_iff_match
    [⟨"a@b.c", hashSecret "right", "n", false, true, false⟩]
    (some "a@b.c") (some "wrong")).2 ?_
  intro t ht
  have hv : verifyCredentials [⟨"a@b.c", hashSecret "right", "n", false, true, false⟩]
      (some "a@b.c") (some "wrong") = .error400 invalidCredentialsMsg := by decide
  rw [hv] at ht
  exact TokenResult.noConfusion ht

/-- C7: the generated storage path is exactly
`uploads/recipe/<uuid>.<ext>`: it is determined by the fresh uuid and
the uploaded file name's extension alone (same extension, same path —
the file's content never enters), and distinct uuids yield distinct
paths.  (Spec-modelled: `core/models.py` is not among the sources.) -/
theorem recipe_image_path_form (uuid f1 f2 u2 : String) :
    recipe_image_file_path uuid f1 =
      "uploads/recipe/" ++ uuid ++ "." ++ fileExtension f1 ∧
    (fileExtension f1 = fileExtension f2 →
      recipe_image_file_path uuid f1 = recipe_image_file_path uuid f2) ∧
    (recipe_image_file_path uuid f1 = recipe_image_file_path u2 f1 → uuid = u2) := by
  refine ⟨rfl, fun h => by unfold recipe_image_file_path; rw [h], fun h => ?_⟩
  unfold recipe_image_file_path at h
  have hd := congrArg String.data h
  simp only [String.data_append] at hd
  have h1 := List.append_cancel_right hd
  have h2 := List.append_cancel_right h1
  have h3 := List.append_cancel_left h2
  cases uuid
  cases u2
  exact congrArg String.mk h3

/-- C7 (witness): the test vector of the repository's model test, and
an application of extension-only dependence. -/
theorem recipe_image_path_form_witness :
    recipe_image_file_path "test-uuid" "myimage.jpg" = "uploads/recipe/test-uuid.jpg" ∧
    recipe_image_file_path "test-uuid" "a.png" = recipe_image_file_path "test-uuid" "b.png" :=
  ⟨by decide, (recipe_image_path_form "test-uuid" "a.png" "b.png" "z").2.1 (by decide)⟩
